import Mathlib

/-! # Read-routing strategies of `pg-replication`: a shallow embedding

This file embeds the three read-routing strategies of the repository
(`app/pattern1_primary_routing.py`, `app/pattern2_lsn_tracking.py`,
`app/pattern3_sticky_session.py`) as executable Lean definitions and
proves, or refutes, the frozen specification claims about them.

Modelling conventions:
* timestamps and elapsed seconds are rationals (`ℚ`), standing for the
  exact values produced by `datetime` subtraction;
* the results of database queries that the routing logic consumes are
  passed in explicitly (a query that raises a `psycopg2` exception is an
  `Except.error`), so a routing function is a pure function of the session
  state and of the replies the endpoints would give;
* PostgreSQL server-side evaluation that the code triggers (text
  comparison of untyped literals, `LIKE` matching) is embedded by
  executable functions defined below, next to the call sites that use
  them.
-/

deriving instance DecidableEq for Except

namespace PgRepl

/-- A Python exception escaping one of the routing functions. -/
inductive PyErr where
  /-- `ZeroDivisionError`, raised by `x % 0`. -/
  | zeroDivision : PyErr
  /-- `psycopg2.OperationalError` (connection failure, statement timeout, ...). -/
  | operationalError : String → PyErr
  /-- the configuration error the specification asks for on an empty replica set. -/
  | configurationError : PyErr
deriving DecidableEq, Repr

/-- The two kinds of endpoint a query can be issued against. -/
inductive Node where
  | primary : Node
  | replica : Node
deriving DecidableEq, Repr

/-! ## Pattern 1: time-based primary routing (`pattern1_primary_routing.py`)

`SessionTracker` holds `last_write_time` (a `datetime` or `None`) and the
threshold `write_threshold_seconds = 5`.  `should_read_from_primary`
compares the elapsed seconds since the last write with the threshold.
-/

/-- Per-session state of `SessionTracker`. `last_write_time` is `none` until
the first write; `write_threshold_seconds` is set to `5` by `__init__`. -/
structure SessionTracker where
  last_write_time : Option ℚ
  write_threshold_seconds : ℚ
deriving DecidableEq

/-- `SessionTracker.__init__`: no write recorded yet, threshold 5 seconds. -/
def SessionTracker.init : SessionTracker :=
  { last_write_time := none, write_threshold_seconds := 5 }

/-- `SessionTracker.record_write`: store the current time.  (A `datetime`
object is always truthy, so the `None` check below is exactly an
`Option` check.) -/
def record_write (st : SessionTracker) (now : ℚ) : SessionTracker :=
  { st with last_write_time := some now }

/-- `SessionTracker.should_read_from_primary`: `False` when no write was
recorded, otherwise `elapsed < write_threshold_seconds` with
`elapsed = now - last_write_time`. -/
def should_read_from_primary (st : SessionTracker) (now : ℚ) : Bool :=
  match st.last_write_time with
  | none => false
  | some t => decide (now - t < st.write_threshold_seconds)

/-- `DatabaseClient.write_data`: the insert is issued on the primary
connection, and the session records the write time.  The returned list is
the trace of endpoints queried. -/
def write_data (st : SessionTracker) (now : ℚ) : SessionTracker × List Node :=
  (record_write st now, [Node.primary])

/-- `DatabaseClient.read_data`: choose the connection with
`should_read_from_primary`, run the select there, leave the session as it
was.  Returns (chosen endpoint, state afterwards). -/
def read_data (st : SessionTracker) (now : ℚ) : Node × SessionTracker :=
  if should_read_from_primary st now then (Node.primary, st) else (Node.replica, st)

/-! ## Log positions and their PostgreSQL representations

A `pg_lsn` value is a 64-bit position rendered by the server as
`%X/%X` — uppercase hexadecimal of the two 32-bit halves, no leading
zeros, separated by a slash.  The native order on positions is the order
of the underlying 64-bit integers, i.e. lexicographic on (hi, lo). -/

/-- A write-ahead-log position: (hi, lo) pair of 32-bit halves. -/
abbrev LSN : Type := Nat × Nat

/-- The log's native total order on positions (order of the 64-bit value):
compare the high halves, then the low halves. -/
def lsnLe (a b : LSN) : Bool :=
  decide (a.1 < b.1) || (a.1 == b.1 && decide (a.2 ≤ b.2))

/-- Uppercase hexadecimal digit, as printf `%X` produces it. -/
def hexDigitChar (d : Nat) : Char :=
  if d < 10 then Char.ofNat (48 + d) else Char.ofNat (55 + d)

/-- Most-significant-first hexadecimal digits of `n` (no leading zeros;
`[0]` for zero).  The first argument is structural fuel; any fuel above
the digit count gives the same list, and `hexDigits` supplies `n + 1`. -/
def hexDigitsAux : Nat → Nat → List Nat
  | 0, _ => []
  | fuel + 1, n => if n < 16 then [n] else hexDigitsAux fuel (n / 16) ++ [n % 16]

/-- Hexadecimal digits of `n`, most significant first. -/
def hexDigits (n : Nat) : List Nat := hexDigitsAux (n + 1) n

/-- `%X`: uppercase hexadecimal rendering of `n`, no leading zeros. -/
def natToHex (n : Nat) : String := ⟨(hexDigits n).map hexDigitChar⟩

/-- The textual form of a position as the server reports it: `%X/%X`. -/
def lsnToString (a : LSN) : String := natToHex a.1 ++ "/" ++ natToHex a.2

/-- Lexicographic (byte-wise) comparison of character lists: the semantics
of SQL `text <= text` under memcmp-style collation. -/
def charListLe : List Char → List Char → Bool
  | [], _ => true
  | _ :: _, [] => false
  | a :: as, b :: bs => if a = b then charListLe as bs else decide (a < b)

/-- SQL evaluation of `SELECT %s <= %s` when both parameters are sent as
plain string literals: with both operands of unknown type, PostgreSQL's
operator resolution falls back to the string category and evaluates
`text <= text` — a lexicographic comparison of the two token strings, not
the `pg_lsn` comparison. -/
def sqlTextLe (s t : String) : Bool := charListLe s.data t.data

/-! ## Pattern 2: LSN-based routing (`pattern2_lsn_tracking.py`) -/

/-- Per-session state of `LSNTracker`: the token string returned by
`SELECT pg_current_wal_lsn()` at the last write, or `None`. -/
structure LSNTracker where
  last_write_lsn : Option String
deriving DecidableEq

/-- Python's `not self.last_write_lsn`: true for `None` and for the empty
string (falsy values). -/
def lsnAbsent : Option String → Bool
  | none => true
  | some s => s.isEmpty

/-- What the replica connection would answer during one caught-up check:
the reply to `SELECT pg_last_wal_replay_lsn()` (or the exception it
raises), and — when the code goes on to run `SELECT %s <= %s` — whether
that second query raises instead of evaluating the text comparison. -/
structure ReplicaBehavior where
  replay : Except PyErr String
  cmpFail : Option PyErr

/-- One query issued on a connection during pattern-2 routing. -/
inductive QueryEvent where
  /-- `SELECT pg_last_wal_replay_lsn()` on the replica connection. -/
  | replayLsnQuery : QueryEvent
  /-- `SELECT %s <= %s` on the replica connection, with the two tokens. -/
  | cmpQuery : String → String → QueryEvent
  /-- the row select, on the chosen endpoint. -/
  | selectRows : Node → QueryEvent
deriving DecidableEq

/-- `LSNTracker.replica_is_caught_up`, together with the trace of queries
it issues on the replica connection.  With no recorded write it returns
`True` at once; otherwise it fetches the replay position (an exception
propagates) and then lets the server compare the two token strings (sent
as untyped literals, hence `sqlTextLe`). -/
def caught_up_events (tr : LSNTracker) (rb : ReplicaBehavior) :
    Except PyErr Bool × List QueryEvent :=
  match tr.last_write_lsn with
  | none => (.ok true, [])
  | some s =>
    if s.isEmpty then (.ok true, [])
    else
      match rb.replay with
      | .error e => (.error e, [.replayLsnQuery])
      | .ok replica_lsn =>
        match rb.cmpFail with
        | some e => (.error e, [.replayLsnQuery, .cmpQuery s replica_lsn])
        | none => (.ok (sqlTextLe s replica_lsn), [.replayLsnQuery, .cmpQuery s replica_lsn])

/-- `LSNTracker.replica_is_caught_up`: the value (or exception) of the
check itself. -/
def replica_is_caught_up (tr : LSNTracker) (rb : ReplicaBehavior) : Except PyErr Bool :=
  (caught_up_events tr rb).1

/-- State of `SmartDatabaseClient` relevant to routing. -/
structure SmartClientState where
  lsn_tracker : LSNTracker
deriving DecidableEq

/-- `SmartDatabaseClient.write_data`: insert on the primary, commit, then
`record_write_lsn(self.primary_conn)` stores the primary's reported
position.  Returns the new state and the trace of endpoints queried. -/
def smart_write_data (_st : SmartClientState) (currentWalLsn : String) :
    SmartClientState × List Node :=
  ({ lsn_tracker := { last_write_lsn := some currentWalLsn } }, [Node.primary, Node.primary])

/-- `SmartDatabaseClient.read_data`: `if prefer_replica and
self.lsn_tracker.replica_is_caught_up(...)` — Python `and` short-circuits,
so with `prefer_replica=False` the check never runs.  Returns the outcome
(chosen endpoint, or the escaping exception), the state after the call,
and the trace of queries issued. -/
def smart_read_data (st : SmartClientState) (prefer_replica : Bool) (rb : ReplicaBehavior) :
    Except PyErr Node × SmartClientState × List QueryEvent :=
  if prefer_replica then
    match caught_up_events st.lsn_tracker rb with
    | (.error e, evs) => (.error e, st, evs)
    | (.ok b, evs) =>
      let conn := if b then Node.replica else Node.primary
      (.ok conn, st, evs ++ [.selectRows conn])
  else
    (.ok Node.primary, st, [.selectRows Node.primary])

/-! ## SQL `LIKE` matching

`read_for_user` filters with `data LIKE 'User-<id>:%'`.  PostgreSQL
`LIKE`: `%` matches any sequence, `_` any single character, and backslash
(the default escape character) makes the next pattern character literal.
(A pattern ending in a lone escape character makes the server raise; the
patterns this code builds always end in `%`, so that case is out of
scope and the matcher below just treats a trailing backslash literally.) -/

/-- `LIKE` matching on character lists, with structural fuel: every
recursive call shortens the pattern, so fuel `pattern.length + 1` (which
`likeMatch` supplies) is always enough. -/
def likeMatchF : Nat → List Char → List Char → Bool
  | 0, _, _ => false
  | _ + 1, [], s => s.isEmpty
  | fuel + 1, p :: ps, s =>
    if p = '%' then s.tails.any (likeMatchF fuel ps)
    else if p = '\\' then
      match ps, s with
      | p' :: ps', c :: s' => p' == c && likeMatchF fuel ps' s'
      | _, _ => false
    else if p = '_' then
      match s with
      | [] => false
      | _ :: s' => likeMatchF fuel ps s'
    else
      match s with
      | [] => false
      | c :: s' => p == c && likeMatchF fuel ps s'

/-- `LIKE` matching on character lists. -/
def likeMatch (p s : List Char) : Bool := likeMatchF (p.length + 1) p s

/-- `string LIKE pattern` as PostgreSQL evaluates it. -/
def sqlLike (pat s : String) : Bool := likeMatch pat.data s.data

/-! ## Pattern 3: sticky-session routing (`pattern3_sticky_session.py`)

`hashlib.md5` is an external library primitive, not code of this
repository; the routing logic only feeds it the session key and consumes
the resulting integer.  It is therefore modelled as an arbitrary function
`md5_int : String → Nat` standing for
`int(hashlib.md5(user_id.encode()).hexdigest(), 16)`, and every theorem
below holds for each such function. -/

/-- One entry of `self.replicas` (or `self.primary`, with `name` unused). -/
structure ReplicaNodeCfg where
  host : String
  port : Nat
  name : String
deriving DecidableEq, Repr

/-- The replica list configured by `StickySessionRouter.__init__`. -/
def router_replicas : List ReplicaNodeCfg :=
  [{ host := "localhost", port := 5433, name := "replica1" },
   { host := "localhost", port := 5434, name := "replica2" }]

/-- The primary endpoint configured by `StickySessionRouter.__init__`. -/
def router_primary : ReplicaNodeCfg :=
  { host := "localhost", port := 5432, name := "" }

/-- Mutable state of `StickySessionRouter`: the replica list and the keys
of the connections opened so far (`self.connections`). -/
structure StickyState where
  replicas : List ReplicaNodeCfg
  connections : List String
deriving DecidableEq, Repr

/-- `StickySessionRouter.__init__`. -/
def StickyState.init : StickyState :=
  { replicas := router_replicas, connections := [] }

/-- The cache key `f"{host}:{port}"` used by `get_connection`. -/
def connKey (cfg : ReplicaNodeCfg) : String :=
  cfg.host ++ ":" ++ toString cfg.port

/-- `get_connection`: open (and cache) the connection if its key is new. -/
def get_connection (st : StickyState) (cfg : ReplicaNodeCfg) : StickyState :=
  if connKey cfg ∈ st.connections then st
  else { st with connections := st.connections ++ [connKey cfg] }

/-- `StickySessionRouter.get_replica_for_user`: hash the key with MD5,
reduce modulo `len(self.replicas)`, index.  With an empty replica list the
hash is still computed and `hash_value % 0` then raises
`ZeroDivisionError`. -/
def get_replica_for_user (md5_int : String → Nat) (replicas : List ReplicaNodeCfg)
    (user_id : String) : Except PyErr ReplicaNodeCfg :=
  let hash_value := md5_int user_id
  match replicas with
  | [] => .error .zeroDivision
  | r :: rs => .ok ((r :: rs).get ⟨hash_value % (r :: rs).length, Nat.mod_lt _ (Nat.succ_pos _)⟩)

/-- The string stored by `write_for_user`: `f"User-{user_id}: {data}"`. -/
def stored_data (user_id data : String) : String :=
  "User-" ++ user_id ++ ": " ++ data

/-- The `LIKE` pattern used by `read_for_user`: `f"User-{user_id}:%"`. -/
def read_filter (user_id : String) : String :=
  "User-" ++ user_id ++ ":%"

/-- `StickySessionRouter.write_for_user`: connect to `self.primary`, insert
the prefixed payload there.  Returns the state afterwards and the
endpoints queried. -/
def write_for_user (st : StickyState) (_user_id _data : String) :
    StickyState × List ReplicaNodeCfg :=
  (get_connection st router_primary, [router_primary])

/-- `StickySessionRouter.read_for_user`: pick the sticky replica, connect,
filter by the user's pattern.  Returns the chosen replica and the state
afterwards (an empty replica list raises out of `get_replica_for_user`,
leaving the state unchanged). -/
def read_for_user (md5_int : String → Nat) (st : StickyState) (user_id : String) :
    Except PyErr (ReplicaNodeCfg × StickyState) :=
  match get_replica_for_user md5_int st.replicas user_id with
  | .error e => .error e
  | .ok replica => .ok (replica, get_connection st replica)

/-- `n` successive `read_for_user` calls for the same user, threading the
router state; each list entry is the replica that call selected (or the
exception it raised, the state then unchanged). -/
def repeated_reads (md5_int : String → Nat) (user_id : String) :
    StickyState → Nat → List (Except PyErr ReplicaNodeCfg)
  | _, 0 => []
  | st, n + 1 =>
    match read_for_user md5_int st user_id with
    | .error e => .error e :: repeated_reads md5_int user_id st n
    | .ok (r, st') => .ok r :: repeated_reads md5_int user_id st' n

/-- Numeric value of a most-significant-first base-16 digit list (proof
support for relating `natToHex` to the number it renders). -/
def hexVal : List Nat → Nat
  | [] => 0
  | d :: ds => d * 16 ^ ds.length + hexVal ds

/-! ## Theorems -/

/-- C4: the time-based check `should_read_from_primary` returns true (route
to primary) iff a write has been recorded and the elapsed time since
`last_write_time` is strictly below the threshold; it returns false
otherwise, in particular when no write was ever recorded; the threshold
defaults to 5 seconds. -/
theorem claim_C4 :
    (∀ (st : SessionTracker) (now : ℚ),
      should_read_from_primary st now = true ↔
        ∃ t, st.last_write_time = some t ∧ now - t < st.write_threshold_seconds)
    ∧ SessionTracker.init.write_threshold_seconds = 5 := by
  refine ⟨fun st now => ?_, rfl⟩
  cases h : st.last_write_time with
  | none => simp [should_read_from_primary, h]
  | some t => simp [should_read_from_primary, h]

/-- C5, behavior of the code at the failing input: selecting a replica over
an empty replica set raises `ZeroDivisionError` from `hash_value % 0` (the
hash having already been computed), not the configuration error the
specification demands; this holds for every hash function and session
key. -/
theorem claim_C5_code_behavior :
    ∀ (md5_int : String → Nat) (user_id : String),
      get_replica_for_user md5_int [] user_id = .error PyErr.zeroDivision
      ∧ get_replica_for_user md5_int [] user_id ≠ .error PyErr.configurationError := by
  intro md5_int user_id
  refine ⟨rfl, ?_⟩
  intro h
  simp [get_replica_for_user] at h

/-- C7: in every strategy, every endpoint a write queries is the primary:
pattern 1's `write_data`, pattern 2's `write_data` (insert plus
`pg_current_wal_lsn` fetch), and pattern 3's `write_for_user` (whose
target is the configured primary, distinct from every configured
replica). -/
theorem claim_C7 :
    (∀ (st : SessionTracker) (now : ℚ), ∀ n ∈ (write_data st now).2, n = Node.primary)
    ∧ (∀ (st : SmartClientState) (lsn : String),
        ∀ n ∈ (smart_write_data st lsn).2, n = Node.primary)
    ∧ (∀ (st : StickyState) (u d : String), ∀ tgt ∈ (write_for_user st u d).2,
        tgt = router_primary ∧ ∀ r ∈ router_replicas, tgt ≠ r) := by
  refine ⟨fun st now n hn => ?_, fun st lsn n hn => ?_, fun st u d tgt htgt => ?_⟩
  · simpa [write_data] using hn
  · simpa [smart_write_data] using hn
  · have h : tgt = router_primary := by simpa [write_for_user] using htgt
    subst h
    exact ⟨rfl, by decide⟩

/-- C9: reads never mutate session state: pattern 1's `read_data` returns
the `SessionTracker` unchanged, and pattern 2's `read_data` returns the
`LSNTracker`-holding client state unchanged, for every state, clock value,
routing preference and replica behavior. -/
theorem claim_C9 :
    (∀ (st : SessionTracker) (now : ℚ), (read_data st now).2 = st)
    ∧ (∀ (st : SmartClientState) (prefer_replica : Bool) (rb : ReplicaBehavior),
        (smart_read_data st prefer_replica rb).2.1 = st) := by
  constructor
  · intro st now
    unfold read_data
    split <;> rfl
  · intro st prefer_replica rb
    unfold smart_read_data
    split
    · split <;> rfl
    · rfl

/-- C10: with `prefer_replica=False` the pattern-2 read targets the primary,
issues no query for the replica's replay position (`and` short-circuits
the caught-up check), and its outcome is independent of anything the
replica connection would have answered. -/
theorem claim_C10 :
    ∀ (st : SmartClientState) (rb rb' : ReplicaBehavior),
      (smart_read_data st false rb).1 = .ok Node.primary
      ∧ QueryEvent.replayLsnQuery ∉ (smart_read_data st false rb).2.2
      ∧ (∀ s r, QueryEvent.cmpQuery s r ∉ (smart_read_data st false rb).2.2)
      ∧ smart_read_data st false rb = smart_read_data st false rb' := by
  intro st rb rb'
  refine ⟨rfl, ?_, ?_, rfl⟩
  · simp [smart_read_data]
  · intro s r
    simp [smart_read_data]

/-- `read_for_user` never changes the configured replica list. -/
theorem read_for_user_replicas (md5_int : String → Nat) (st : StickyState) (u : String)
    (r : ReplicaNodeCfg) (st' : StickyState)
    (h : read_for_user md5_int st u = .ok (r, st')) : st'.replicas = st.replicas := by
  unfold read_for_user at h
  cases hg : get_replica_for_user md5_int st.replicas u with
  | error e => rw [hg] at h; cases h
  | ok rep =>
    rw [hg] at h
    cases h
    unfold get_connection
    split <;> rfl

/-- C6: for a fixed replica set and fixed session key, every one of any
number of successive `read_for_user` calls selects the same replica,
namely the one `get_replica_for_user` computes from the initial replica
list — for every hash function, starting state and call count. -/
theorem claim_C6 (md5_int : String → Nat) (st : StickyState) (user_id : String) (n : Nat)
    (h : st.replicas ≠ []) :
    ∀ x ∈ repeated_reads md5_int user_id st n,
      x = get_replica_for_user md5_int st.replicas user_id := by
  induction n generalizing st with
  | zero => intro x hx; cases hx
  | succ n ih =>
    intro x hx
    unfold repeated_reads at hx
    cases hr : read_for_user md5_int st user_id with
    | error e =>
      have : False := by
        unfold read_for_user at hr
        rcases hrep : st.replicas with _ | ⟨r0, rs⟩
        · exact h hrep
        · rw [hrep] at hr
          simp [get_replica_for_user] at hr
      exact this.elim
    | ok p =>
      rcases p with ⟨rep, st'⟩
      rw [hr] at hx
      cases hx with
      | head =>
        unfold read_for_user at hr
        cases hg : get_replica_for_user md5_int st.replicas user_id with
        | error e => rw [hg] at hr; cases hr
        | ok rep' => rw [hg] at hr; cases hr; rfl
      | tail _ hx =>
        have hrepl := read_for_user_replicas md5_int st user_id rep st' hr
        have h' : st'.replicas ≠ [] := by rw [hrepl]; exact h
        have := ih st' h' x hx
        rwa [hrepl] at this

/-- Witness for C6: with the configured two-replica set, the key "alice"
and a concrete stand-in hash function, 100 repeated calls all return the
replica `get_replica_for_user` selects. -/
theorem claim_C6_witness :
    StickyState.init.replicas ≠ []
    ∧ ∀ x ∈ repeated_reads (fun s => s.length) "alice" StickyState.init 100,
        x = get_replica_for_user (fun s => s.length) StickyState.init.replicas "alice" :=
  ⟨by decide, claim_C6 (fun s => s.length) StickyState.init "alice" 100 (by decide)⟩

/-- C2, behavior of the code at the failing input: with a recorded write,
if the replica's replay-position query raises, `replica_is_caught_up`
does not return `False` (or anything) — the exception escapes — and the
surrounding `read_data` aborts with the same exception instead of routing
the read to the primary. -/
theorem claim_C2_code_behavior (s : String) (e : PyErr) (cf : Option PyErr)
    (h : s.isEmpty = false) :
    replica_is_caught_up ⟨some s⟩ ⟨.error e, cf⟩ = .error e
    ∧ (∀ b : Bool, replica_is_caught_up ⟨some s⟩ ⟨.error e, cf⟩ ≠ .ok b)
    ∧ (smart_read_data ⟨⟨some s⟩⟩ true ⟨.error e, cf⟩).1 = .error e := by
  refine ⟨?_, ?_, ?_⟩ <;>
    simp [replica_is_caught_up, caught_up_events, smart_read_data, h]

/-- Witness for C2: a concrete recorded position and a timed-out replay
query make the check raise rather than answer. -/
theorem claim_C2_witness :
    ("0/16B3748" : String).isEmpty = false
    ∧ (replica_is_caught_up ⟨some "0/16B3748"⟩
          ⟨.error (.operationalError "timeout"), none⟩ = .error (.operationalError "timeout")
      ∧ (∀ b : Bool, replica_is_caught_up ⟨some "0/16B3748"⟩
          ⟨.error (.operationalError "timeout"), none⟩ ≠ .ok b)
      ∧ (smart_read_data ⟨⟨some "0/16B3748"⟩⟩ true
          ⟨.error (.operationalError "timeout"), none⟩).1
          = .error (.operationalError "timeout")) :=
  ⟨by decide, claim_C2_code_behavior "0/16B3748" (.operationalError "timeout") none (by decide)⟩

/-- C1, counterexample: positions 0/100 (256) and 0/FF (255).  The session
recorded 0/100; the replica reports the strictly smaller 0/FF, so under
the log's native order the claim requires `False` — yet the check answers
`True`, because the token strings are compared as text. -/
theorem claim_C1_counterexample :
    replica_is_caught_up ⟨some (lsnToString (0, 256))⟩ ⟨.ok (lsnToString (0, 255)), none⟩
      = .ok true
    ∧ lsnLe (0, 256) (0, 255) = false := by decide

/-- C1 (amended): with the queries succeeding, `replica_is_caught_up`
returns true iff no write is recorded (`last_write_lsn` falsy) or the
recorded token is `≤` the replica's reported token in PostgreSQL's text
order (the order the untyped-literal comparison actually evaluates), and
returns false iff a write is recorded and the recorded token is strictly
above the reported one in that text order. -/
theorem claim_C1_amended (tr : LSNTracker) (replay : String) :
    (replica_is_caught_up tr ⟨.ok replay, none⟩ = .ok true ↔
      lsnAbsent tr.last_write_lsn = true
      ∨ ∃ s, tr.last_write_lsn = some s ∧ sqlTextLe s replay = true)
    ∧ (replica_is_caught_up tr ⟨.ok replay, none⟩ = .ok false ↔
      ∃ s, tr.last_write_lsn = some s ∧ s.isEmpty = false ∧ sqlTextLe s replay = false) := by
  cases htr : tr.last_write_lsn with
  | none =>
    simp [replica_is_caught_up, caught_up_events, htr, lsnAbsent]
  | some s =>
    by_cases hs : s.isEmpty
    · have hs' : s = "" := (String.isEmpty_iff s).mp hs
      subst hs'
      simp [replica_is_caught_up, caught_up_events, htr, lsnAbsent, hs, sqlTextLe, charListLe]
    · simp only [Bool.not_eq_true] at hs
      cases hle : sqlTextLe s replay <;>
        simp [replica_is_caught_up, caught_up_events, htr, lsnAbsent, hs, hle]

/-- Every recursive call of `likeMatchF` shortens the pattern, so any two
sufficient fuels agree. -/
theorem likeMatchF_fuel_eq : ∀ (f₁ f₂ : Nat) (p s : List Char),
    p.length < f₁ → p.length < f₂ → likeMatchF f₁ p s = likeMatchF f₂ p s := by
  intro f₁
  induction f₁ with
  | zero => intro f₂ p s h1 _; exact absurd h1 (by omega)
  | succ f₁ ih =>
    intro f₂ p s h1 h2
    cases f₂ with
    | zero => exact absurd h2 (by omega)
    | succ f₂ =>
      cases p with
      | nil => rfl
      | cons p ps =>
        simp only [List.length_cons] at h1 h2
        simp only [likeMatchF]
        by_cases hp : p = '%'
        · simp only [hp, if_pos]
          have hfun : likeMatchF f₁ ps = likeMatchF f₂ ps :=
            funext fun s' => ih f₂ ps s' (by omega) (by omega)
          rw [hfun]
        · by_cases hb : p = '\\'
          · cases ps with
            | nil => simp [hp, hb]
            | cons p' ps' =>
              cases s with
              | nil => simp [hp, hb]
              | cons c s' =>
                simp only [List.length_cons] at h1 h2
                have hrec := ih f₂ ps' s' (by omega) (by omega)
                simp [hp, hb, hrec]
          · by_cases hu : p = '_'
            · cases s with
              | nil => simp [hp, hb, hu]
              | cons c s' =>
                have hrec := ih f₂ ps s' (by omega) (by omega)
                simp [hp, hb, hu, hrec]
            · cases s with
              | nil => simp [hp, hb, hu]
              | cons c s' =>
                have hrec := ih f₂ ps s' (by omega) (by omega)
                simp [hp, hb, hu, hrec]

/-- A pattern consisting of a single `%` matches every string (with fuel
for both steps). -/
theorem likeMatchF_pct (f : Nat) (s : List Char) (hf : 2 ≤ f) :
    likeMatchF f ['%'] s = true := by
  cases f with
  | zero => omega
  | succ f =>
    simp only [likeMatchF, if_pos]
    rw [List.any_eq_true]
    refine ⟨[], (List.mem_tails _ _).mpr List.nil_suffix, ?_⟩
    cases f with
    | zero => omega
    | succ f => rfl

/-- Self-matching: an escape-free character block, followed by `%` in the
pattern and by anything in the string, always matches.  `%` and `_`
characters inside the block match their own occurrence in the string. -/
theorem likeMatchF_self : ∀ (cs rest : List Char) (f : Nat),
    cs.length + 2 ≤ f → '\\' ∉ cs →
    likeMatchF f (cs ++ ['%']) (cs ++ rest) = true := by
  intro cs
  induction cs with
  | nil =>
    intro rest f hf _
    simpa using likeMatchF_pct f rest (by omega)
  | cons c cs ih =>
    intro rest f hf hnb
    have hc : c ≠ '\\' := fun hc => hnb (hc ▸ List.mem_cons_self c cs)
    have hcs : '\\' ∉ cs := fun hm => hnb (List.mem_cons_of_mem c hm)
    cases f with
    | zero => simp at hf
    | succ f =>
      simp only [List.length_cons] at hf
      simp only [List.cons_append, likeMatchF]
      by_cases hp : c = '%'
      · simp only [hp, if_pos]
        rw [List.any_eq_true]
        exact ⟨cs ++ rest, (List.mem_tails _ _).mpr (List.suffix_cons _ _),
          ih rest f (by omega) hcs⟩
      · have hrec := ih rest f (by omega) hcs
        by_cases hu : c = '_'
        · simp [hp, hc, hu, hrec]
        · simp [hp, hc, hu, hrec]

/-- C8, counterexample: for the one-character user id `\` the stored row
`User-\: x` does **not** satisfy the read filter `User-\:%`, because the
backslash in the pattern is the `LIKE` escape character and consumes the
following `:`. -/
theorem claim_C8_counterexample :
    sqlLike (read_filter "\\") (stored_data "\\" "x") = false := by decide

/-- C8 (amended): for every user id containing no backslash (the `LIKE`
escape character) and every payload, the stored string
`User-<id>: <payload>` satisfies the read filter `User-<id>:%`; wildcard
characters `%` and `_` inside the id still match their own occurrence. -/
theorem claim_C8_amended (user_id data : String) (h : '\\' ∉ user_id.data) :
    sqlLike (read_filter user_id) (stored_data user_id data) = true := by
  have hcs : '\\' ∉ ("User-".data ++ user_id.data ++ [':']) := by
    intro hmem
    rcases List.mem_append.mp hmem with hmem | hmem
    · rcases List.mem_append.mp hmem with hmem | hmem
      · exact absurd hmem (by decide)
      · exact h hmem
    · exact absurd hmem (by decide)
  have hpat : (read_filter user_id).data
      = ("User-".data ++ user_id.data ++ [':']) ++ ['%'] := by
    show (("User-" ++ user_id) ++ ":%").data = _
    rw [String.data_append, String.data_append]
    simp
  have hstr : (stored_data user_id data).data
      = ("User-".data ++ user_id.data ++ [':']) ++ (' ' :: data.data) := by
    show ((("User-" ++ user_id) ++ ": ") ++ data).data = _
    rw [String.data_append, String.data_append, String.data_append]
    simp
  unfold sqlLike likeMatch
  rw [hpat, hstr]
  have hlen : (("User-".data ++ user_id.data ++ [':']) ++ ['%']).length
      = ("User-".data ++ user_id.data ++ [':']).length + 1 := by simp
  rw [hlen]
  exact likeMatchF_self _ _ _ (by omega) hcs

/-- Witness for C8 (amended): the demo user `alice` with payload
`Hello World`. -/
theorem claim_C8_witness :
    '\\' ∉ ("alice" : String).data
    ∧ sqlLike (read_filter "alice") (stored_data "alice" "Hello World") = true :=
  ⟨by decide, claim_C8_amended "alice" "Hello World" (by decide)⟩

/-! ### Hexadecimal renderings versus text order

These lemmas relate `charListLe` on `%X` renderings to the numeric order,
to settle whether the text comparison the code issues agrees with the
log's native order. -/

/-- Appending a least-significant digit multiplies the value by 16. -/
theorem hexVal_append_digit (xs : List Nat) (d : Nat) :
    hexVal (xs ++ [d]) = 16 * hexVal xs + d := by
  induction xs with
  | nil => simp [hexVal]
  | cons x xs ih =>
    simp only [List.cons_append, List.append_eq, hexVal, List.length_append,
      List.length_cons, List.length_nil, ih]
    ring

/-- `hexDigitsAux` renders the value it was given (fuel permitting). -/
theorem hexVal_hexDigitsAux : ∀ (f n : Nat), n < 16 ^ f → hexVal (hexDigitsAux f n) = n := by
  intro f
  induction f with
  | zero =>
    intro n h
    rw [pow_zero] at h
    simp only [hexDigitsAux, hexVal]
    omega
  | succ f ih =>
    intro n h
    by_cases hn : n < 16
    · simp [hexDigitsAux, hn, hexVal]
    · simp only [hexDigitsAux, hn, ite_false]
      rw [hexVal_append_digit]
      have h16 : n / 16 < 16 ^ f := by
        rw [Nat.div_lt_iff_lt_mul (by norm_num)]
        calc n < 16 ^ (f + 1) := h
        _ = 16 ^ f * 16 := by ring
      rw [ih (n / 16) h16]
      omega

/-- Every digit `hexDigitsAux` produces is below 16. -/
theorem hexDigitsAux_lt : ∀ (f n : Nat), ∀ d ∈ hexDigitsAux f n, d < 16 := by
  intro f
  induction f with
  | zero => intro n d hd; simp [hexDigitsAux] at hd
  | succ f ih =>
    intro n d hd
    by_cases hn : n < 16
    · simp [hexDigitsAux, hn] at hd
      omega
    · simp only [hexDigitsAux, hn, ite_false] at hd
      rcases List.mem_append.mp hd with hd | hd
      · exact ih _ _ hd
      · simp at hd
        omega

/-- `hexDigits` renders the value it was given. -/
theorem hexVal_hexDigits (n : Nat) : hexVal (hexDigits n) = n :=
  hexVal_hexDigitsAux (n + 1) n
    (lt_of_lt_of_le (Nat.lt_pow_self (by norm_num) n)
      (Nat.pow_le_pow_right (by norm_num) (by omega)))

/-- Digit bound for `hexDigits`. -/
theorem hexDigits_lt (n : Nat) : ∀ d ∈ hexDigits n, d < 16 :=
  hexDigitsAux_lt _ _

/-- A valid digit list's value is below `16 ^ length`. -/
theorem hexVal_lt_pow : ∀ (ds : List Nat), (∀ d ∈ ds, d < 16) → hexVal ds < 16 ^ ds.length := by
  intro ds
  induction ds with
  | nil => intro; simp [hexVal]
  | cons d ds ih =>
    intro h
    have hd : d < 16 := h d (List.mem_cons_self _ _)
    have hv := ih fun e he => h e (List.mem_cons_of_mem _ he)
    simp only [hexVal, List.length_cons]
    calc d * 16 ^ ds.length + hexVal ds
        < d * 16 ^ ds.length + 16 ^ ds.length := by omega
    _ = (d + 1) * 16 ^ ds.length := by ring
    _ ≤ 16 * 16 ^ ds.length := Nat.mul_le_mul_right _ (by omega)
    _ = 16 ^ (ds.length + 1) := by ring

/-- Uppercase hex digits compare equal exactly as the digits do. -/
theorem hexDigitChar_eq_iff :
    ∀ d, d < 16 → ∀ e, e < 16 → (hexDigitChar d = hexDigitChar e ↔ d = e) := by decide

/-- Uppercase hex digits compare (byte order) exactly as the digits do. -/
theorem hexDigitChar_lt_iff :
    ∀ d, d < 16 → ∀ e, e < 16 → (hexDigitChar d < hexDigitChar e ↔ d < e) := by decide

/-- A smaller leading coefficient keeps the whole value smaller. -/
theorem mul_add_lt_of_digit_lt (x y B v w : Nat) (hxy : x < y) (hv : v < B) :
    x * B + v < y * B + w := by
  have h1 : x * B + v < (x + 1) * B := by
    have hs : x * B + v < x * B + B := by omega
    calc x * B + v < x * B + B := hs
    _ = (x + 1) * B := by ring
  have h2 : (x + 1) * B ≤ y * B := Nat.mul_le_mul_right _ (by omega)
  omega

/-- On equal-length valid digit lists, byte-order comparison of the
rendered characters coincides with numeric comparison of the values. -/
theorem charListLe_map_hex : ∀ (ds es : List Nat), ds.length = es.length →
    (∀ d ∈ ds, d < 16) → (∀ e ∈ es, e < 16) →
    charListLe (ds.map hexDigitChar) (es.map hexDigitChar)
      = decide (hexVal ds ≤ hexVal es) := by
  intro ds
  induction ds with
  | nil =>
    intro es hlen _ _
    have hes : es = [] := List.eq_nil_of_length_eq_zero hlen.symm
    subst hes
    simp [charListLe, hexVal]
  | cons d ds ih =>
    intro es hlen hds hes
    cases es with
    | nil => simp at hlen
    | cons e es =>
      simp only [List.length_cons] at hlen
      have hlen' : ds.length = es.length := by omega
      have hd : d < 16 := hds d (List.mem_cons_self _ _)
      have he : e < 16 := hes e (List.mem_cons_self _ _)
      have hds' : ∀ x ∈ ds, x < 16 := fun x hx => hds x (List.mem_cons_of_mem _ hx)
      have hes' : ∀ x ∈ es, x < 16 := fun x hx => hes x (List.mem_cons_of_mem _ hx)
      simp only [List.map_cons, charListLe]
      by_cases hde : d = e
      · subst hde
        rw [if_pos rfl, ih es hlen' hds' hes']
        refine decide_eq_decide.mpr ?_
        simp only [hexVal, hlen']
        exact (add_le_add_iff_left _).symm
      · have hchar_ne : hexDigitChar d ≠ hexDigitChar e :=
          fun hh => hde ((hexDigitChar_eq_iff d hd e he).mp hh)
        rw [if_neg hchar_ne]
        refine decide_eq_decide.mpr ?_
        rw [hexDigitChar_lt_iff d hd e he]
        constructor
        · intro hlt
          simp only [hexVal, hlen']
          exact le_of_lt (mul_add_lt_of_digit_lt d e _ _ _ hlt
            (hlen' ▸ hexVal_lt_pow ds hds'))
        · intro hle
          by_contra hnot
          have hed : e < d := by omega
          have : hexVal (e :: es) < hexVal (d :: ds) := by
            simp only [hexVal, hlen']
            exact mul_add_lt_of_digit_lt e d _ _ _ hed (hexVal_lt_pow es hes')
          omega

/-- Valid digit lists with equal character renderings are equal. -/
theorem map_hexDigitChar_inj : ∀ (ds es : List Nat),
    (∀ d ∈ ds, d < 16) → (∀ e ∈ es, e < 16) →
    (ds.map hexDigitChar = es.map hexDigitChar ↔ ds = es) := by
  intro ds
  induction ds with
  | nil => intro es _ _; cases es <;> simp
  | cons d ds ih =>
    intro es hds hes
    cases es with
    | nil => simp
    | cons e es =>
      simp only [List.map_cons, List.cons.injEq]
      rw [ih es (fun x hx => hds x (List.mem_cons_of_mem _ hx))
        (fun x hx => hes x (List.mem_cons_of_mem _ hx))]
      rw [hexDigitChar_eq_iff d (hds d (List.mem_cons_self _ _))
        e (hes e (List.mem_cons_self _ _))]

/-- Byte-order comparison across an equal-length head block: decided by
the heads when they differ, by the tails when they agree. -/
theorem charListLe_append : ∀ (as bs xs ys : List Char), as.length = bs.length →
    charListLe (as ++ xs) (bs ++ ys)
      = if as = bs then charListLe xs ys else charListLe as bs := by
  intro as
  induction as with
  | nil =>
    intro bs xs ys hlen
    have hbs : bs = [] := List.eq_nil_of_length_eq_zero hlen.symm
    subst hbs
    simp
  | cons a as ih =>
    intro bs xs ys hlen
    cases bs with
    | nil => simp at hlen
    | cons b bs =>
      simp only [List.length_cons] at hlen
      simp only [List.cons_append, charListLe, List.append_eq]
      by_cases hab : a = b
      · subst hab
        rw [if_pos rfl, ih bs xs ys (by omega)]
        by_cases he : as = bs
        · subst he
          rw [if_pos rfl, if_pos rfl]
        · rw [if_neg he, if_neg (by simp [he]), if_pos rfl]
      · rw [if_neg hab, if_neg (by simp [hab]), if_neg hab]

/-- Character data of a rendered position: hex of `hi`, a slash, hex of
`lo`. -/
theorem lsnToString_data (a : LSN) : (lsnToString a).data
    = (hexDigits a.1).map hexDigitChar ++ '/' :: (hexDigits a.2).map hexDigitChar := by
  show ((natToHex a.1 ++ "/") ++ natToHex a.2).data = _
  rw [String.data_append, String.data_append]
  show ((hexDigits a.1).map hexDigitChar ++ ['/']) ++ (hexDigits a.2).map hexDigitChar = _
  simp

/-- String length of `natToHex` is the digit count. -/
theorem natToHex_length (n : Nat) : (natToHex n).length = (hexDigits n).length := by
  show ((hexDigits n).map hexDigitChar).length = _
  exact List.length_map _ _

/-- A rendered position is never the empty string. -/
theorem lsnToString_isEmpty (a : LSN) : (lsnToString a).isEmpty = false := by
  cases hh : (lsnToString a).isEmpty with
  | false => rfl
  | true =>
    exfalso
    have hempty := (String.isEmpty_iff _).mp hh
    have hdata := congrArg String.data hempty
    rw [lsnToString_data] at hdata
    simp at hdata

/-- On renderings whose hex components have pairwise equal lengths, the
text comparison the code issues agrees with the native order (without
that condition the two orders can disagree). -/
theorem sqlTextLe_lsnToString (a b : LSN)
    (h1 : (natToHex a.1).length = (natToHex b.1).length)
    (h2 : (natToHex a.2).length = (natToHex b.2).length) :
    sqlTextLe (lsnToString a) (lsnToString b) = lsnLe a b := by
  have hlen1 : (hexDigits a.1).length = (hexDigits b.1).length := by
    rw [← natToHex_length, ← natToHex_length]; exact h1
  have hlen2 : (hexDigits a.2).length = (hexDigits b.2).length := by
    rw [← natToHex_length, ← natToHex_length]; exact h2
  have hlenH : ((hexDigits a.1).map hexDigitChar).length
      = ((hexDigits b.1).map hexDigitChar).length := by
    rw [List.length_map, List.length_map]; exact hlen1
  unfold sqlTextLe
  rw [lsnToString_data, lsnToString_data, charListLe_append _ _ _ _ hlenH]
  by_cases hH : (hexDigits a.1).map hexDigitChar = (hexDigits b.1).map hexDigitChar
  · rw [if_pos hH]
    have ha1b1 : a.1 = b.1 := by
      have hdig := (map_hexDigitChar_inj _ _ (hexDigits_lt _) (hexDigits_lt _)).mp hH
      have hv := congrArg hexVal hdig
      rwa [hexVal_hexDigits, hexVal_hexDigits] at hv
    have hslash : charListLe ('/' :: (hexDigits a.2).map hexDigitChar)
        ('/' :: (hexDigits b.2).map hexDigitChar)
        = charListLe ((hexDigits a.2).map hexDigitChar) ((hexDigits b.2).map hexDigitChar) := by
      simp [charListLe]
    rw [hslash, charListLe_map_hex _ _ hlen2 (hexDigits_lt _) (hexDigits_lt _),
      hexVal_hexDigits, hexVal_hexDigits]
    unfold lsnLe
    rw [ha1b1]
    simp
  · rw [if_neg hH]
    have ha1b1 : a.1 ≠ b.1 := fun hee => hH (by rw [hee])
    rw [charListLe_map_hex _ _ hlen1 (hexDigits_lt _) (hexDigits_lt _),
      hexVal_hexDigits, hexVal_hexDigits]
    unfold lsnLe
    have hbeq : (a.1 == b.1) = false := by simp [ha1b1]
    rw [hbeq]
    simp only [Bool.false_and, Bool.or_false]
    exact decide_eq_decide.mpr (by omega)

/-- C3, counterexample: the session recorded position 0/A (ten); the
replica reports 0/10 (sixteen), which is ahead in the log's native order
— the claim requires the check to succeed — yet the comparison the code
issues answers false, because as text `"0/A" <= "0/10"` fails
(`'A' > '1'`).  So the comparison is not evaluated in the native order. -/
theorem claim_C3_counterexample :
    lsnLe (0, 10) (0, 16) = true
    ∧ replica_is_caught_up ⟨some (lsnToString (0, 10))⟩ ⟨.ok (lsnToString (0, 16)), none⟩
        = .ok false := by decide

/-- C3 (amended): the comparison `replica_is_caught_up` performs is a
lexicographic text comparison of the two token strings (the parameters
reach the server as untyped literals); it coincides with the log's native
order whenever the two tokens' hex components have pairwise equal
rendered lengths, but can disagree otherwise. -/
theorem claim_C3_amended (a b : LSN)
    (h1 : (natToHex a.1).length = (natToHex b.1).length)
    (h2 : (natToHex a.2).length = (natToHex b.2).length) :
    replica_is_caught_up ⟨some (lsnToString a)⟩ ⟨.ok (lsnToString b), none⟩
      = .ok (lsnLe a b) := by
  unfold replica_is_caught_up caught_up_events
  simp only [lsnToString_isEmpty a, Bool.false_eq_true, if_false]
  rw [sqlTextLe_lsnToString a b h1 h2]

/-- Witness for C3 (amended): positions 1/100 (256) and 1/12C (300), whose
hex components have equal lengths; the check agrees with the native
order there. -/
theorem claim_C3_witness :
    (natToHex (1, 256).1).length = (natToHex (1, 300).1).length
    ∧ (natToHex (1, 256).2).length = (natToHex (1, 300).2).length
    ∧ replica_is_caught_up ⟨some (lsnToString (1, 256))⟩ ⟨.ok (lsnToString (1, 300)), none⟩
        = .ok (lsnLe (1, 256) (1, 300)) :=
  ⟨by decide, by decide, claim_C3_amended (1, 256) (1, 300) (by decide) (by decide)⟩

end PgRepl
